import Mathlib

/-!
Verification of the semi-monthly budget application's core logic:
date clamping, paycheck assignment, per-paycheck aggregation,
persistence load/save/import, and the add-expense entry point.

The JavaScript source is embedded shallowly: days and years are
unbounded integers (the finite range of the host `Date` type is not
modelled), monetary amounts are rationals, and the fallible
`assignToPaycheck` (which can fall off the end of its `if` chain and
return `undefined`) returns an `Option`.
-/

/-- Proleptic Gregorian leap-year rule, as used by the host date library:
divisible by 4 and not by 100, or divisible by 400. -/
def isLeapYear (y : Int) : Bool :=
  (y % 4 = 0 && y % 100 ≠ 0) || y % 400 = 0

/-- Number of days in the month of `new Date(year, monthIndex, 1)`
(date-fns `getDaysInMonth`).  The host constructor maps a year argument
in [0, 99] to 1900 + year, and normalises an out-of-range month index by
carrying whole years (floor division, Euclidean remainder). -/
def daysInMonth (year monthIndex : Int) : Int :=
  if Int.emod monthIndex 12 = 1 then
    if isLeapYear ((if 0 ≤ year ∧ year ≤ 99 then year + 1900 else year)
        + Int.ediv monthIndex 12) then 29 else 28
  else if Int.emod monthIndex 12 = 3 ∨ Int.emod monthIndex 12 = 5 ∨
      Int.emod monthIndex 12 = 8 ∨ Int.emod monthIndex 12 = 10 then 30
  else 31

/-- `clampDay(day, year, monthIndex)`: `Math.min(Math.max(1, day), dim)`
where `dim` is the number of days in the viewed month. -/
def clampDay (day year monthIndex : Int) : Int :=
  min (max 1 day) (daysInMonth year monthIndex)

/-- `assignToPaycheck(dueDay, p1, p2, year, monthIndex)`: clamps both
paydays, takes `first = min`, `second = max`, returns 1 when
`dueDay > first && dueDay <= second`, returns 2 when
`dueDay > second || dueDay <= first`, and otherwise falls off the end of
the function (JavaScript `undefined`, modelled as `none`). -/
def assignToPaycheck (dueDay p1 p2 year monthIndex : Int) : Option Int :=
  let d1 := clampDay p1 year monthIndex
  let d2 := clampDay p2 year monthIndex
  let first := min d1 d2
  let second := max d1 d2
  if first < dueDay ∧ dueDay ≤ second then some 1
  else if second < dueDay ∨ dueDay ≤ first then some 2
  else none

lemma daysInMonth_ge (year monthIndex : Int) : 28 ≤ daysInMonth year monthIndex := by
  unfold daysInMonth
  split_ifs <;> norm_num

lemma clampDay_lb (day year monthIndex : Int) : 1 ≤ clampDay day year monthIndex := by
  have h := daysInMonth_ge year monthIndex
  unfold clampDay
  omega

lemma clampDay_ub (day year monthIndex : Int) :
    clampDay day year monthIndex ≤ daysInMonth year monthIndex := by
  unfold clampDay
  omega

lemma clampDay_eq_self {day year monthIndex : Int} (h1 : 1 ≤ day)
    (h2 : day ≤ daysInMonth year monthIndex) : clampDay day year monthIndex = day := by
  unfold clampDay
  omega

lemma clampDay_idem (day year monthIndex : Int) :
    clampDay (clampDay day year monthIndex) year monthIndex = clampDay day year monthIndex :=
  clampDay_eq_self (clampDay_lb day year monthIndex) (clampDay_ub day year monthIndex)

/-- The two guards of `assignToPaycheck` are exhaustive and mutually
exclusive, so the function is equivalently: 1 inside the half-open
interval `(first, second]` of clamped paydays, else 2. -/
lemma assignToPaycheck_char (dueDay p1 p2 year monthIndex : Int) :
    assignToPaycheck dueDay p1 p2 year monthIndex =
      if min (clampDay p1 year monthIndex) (clampDay p2 year monthIndex) < dueDay ∧
          dueDay ≤ max (clampDay p1 year monthIndex) (clampDay p2 year monthIndex)
      then some 1 else some 2 := by
  unfold assignToPaycheck
  dsimp only
  by_cases h : min (clampDay p1 year monthIndex) (clampDay p2 year monthIndex) < dueDay ∧
      dueDay ≤ max (clampDay p1 year monthIndex) (clampDay p2 year monthIndex)
  · rw [if_pos h, if_pos h]
  · have h2 : max (clampDay p1 year monthIndex) (clampDay p2 year monthIndex) < dueDay ∨
        dueDay ≤ min (clampDay p1 year monthIndex) (clampDay p2 year monthIndex) := by
      omega
    rw [if_neg h, if_neg h, if_pos h2]

lemma assignToPaycheck_cases (dueDay p1 p2 year monthIndex : Int) :
    assignToPaycheck dueDay p1 p2 year monthIndex = some 1 ∨
      assignToPaycheck dueDay p1 p2 year monthIndex = some 2 := by
  rw [assignToPaycheck_char]
  split_ifs <;> simp

/-- An expense record: `{id, name, amount, dueDay, category}`.  Monetary
amounts are rationals; `dueDay` is the nominal day-of-month. -/
structure Expense where
  id : String
  name : String
  amount : ℚ
  dueDay : Int
  category : String
deriving DecidableEq

/-- The income configuration: `{paycheckDays: [d1, d2], netPerPaycheck, extras}`. -/
structure IncomeConfig where
  paycheckDays : Int × Int
  netPerPaycheck : ℚ
  extras : ℚ
deriving DecidableEq

/-- The in-memory application state: `{expenses, income}`. -/
structure BudgetState where
  expenses : List Expense
  income : IncomeConfig
deriving DecidableEq

/-- The `paycheckDaysClamped` memo: both configured paydays clamped to the
viewed month. -/
def paycheckDaysClamped (income : IncomeConfig) (year monthIndex : Int) : Int × Int :=
  (clampDay income.paycheckDays.1 year monthIndex,
   clampDay income.paycheckDays.2 year monthIndex)

/-- The paycheck label attached to one expense by the `assigned` memo:
`assignToPaycheck(e.dueDay, paycheckDaysClamped[0], paycheckDaysClamped[1],
year, monthIndex)`.  The due day is passed through unclamped. -/
def assignedPaycheck (e : Expense) (pc : Int × Int) (year monthIndex : Int) : Option Int :=
  assignToPaycheck e.dueDay pc.1 pc.2 year monthIndex

/-- The `assigned` memo: each expense paired with its paycheck label. -/
def assigned (expenses : List Expense) (pc : Int × Int) (year monthIndex : Int) :
    List (Expense × Option Int) :=
  expenses.map (fun e => (e, assignedPaycheck e pc year monthIndex))

/-- `p1Items`: the assigned expenses whose paycheck label is 1. -/
def p1Items (expenses : List Expense) (pc : Int × Int) (year monthIndex : Int) :
    List (Expense × Option Int) :=
  (assigned expenses pc year monthIndex).filter (fun ep => ep.2 == some 1)

/-- `p2Items`: the assigned expenses whose paycheck label is 2. -/
def p2Items (expenses : List Expense) (pc : Int × Int) (year monthIndex : Int) :
    List (Expense × Option Int) :=
  (assigned expenses pc year monthIndex).filter (fun ep => ep.2 == some 2)

/-- `p1Total`: `p1Items.reduce((s, e) => s + e.amount, 0)`. -/
def p1Total (expenses : List Expense) (pc : Int × Int) (year monthIndex : Int) : ℚ :=
  (p1Items expenses pc year monthIndex).foldl (fun s ep => s + ep.1.amount) 0

/-- `p2Total`: `p2Items.reduce((s, e) => s + e.amount, 0)`. -/
def p2Total (expenses : List Expense) (pc : Int × Int) (year monthIndex : Int) : ℚ :=
  (p2Items expenses pc year monthIndex).foldl (fun s ep => s + ep.1.amount) 0

/-- Sum of all expense amounts, accumulated the same way as the per-paycheck
totals. -/
def totalAmount (expenses : List Expense) : ℚ :=
  expenses.foldl (fun s e => s + e.amount) 0

lemma foldl_add_eq {α : Type} (l : List α) (f : α → ℚ) (init : ℚ) :
    l.foldl (fun s x => s + f x) init = init + (l.map f).sum := by
  induction l generalizing init with
  | nil => simp
  | cons x xs ih =>
    simp only [List.foldl_cons, List.map_cons, List.sum_cons, ih]
    ring

lemma sum_map_filter_partition {β : Type} (l : List β) (f : β → ℚ) (p q : β → Bool)
    (h : ∀ x ∈ l, (p x = true ∧ q x = false) ∨ (p x = false ∧ q x = true)) :
    ((l.filter p).map f).sum + ((l.filter q).map f).sum = (l.map f).sum := by
  induction l with
  | nil => simp
  | cons x xs ih =>
    have hx := h x (List.mem_cons_self x xs)
    have hxs : ∀ y ∈ xs, (p y = true ∧ q y = false) ∨ (p y = false ∧ q y = true) :=
      fun y hy => h y (List.mem_cons_of_mem x hy)
    rcases hx with ⟨h1, h2⟩ | ⟨h1, h2⟩ <;>
      simp only [List.filter_cons, h1, h2, if_pos, if_neg, Bool.false_eq_true,
        ite_false, ite_true, List.map_cons, List.sum_cons, ← ih hxs] <;>
      ring

/-- A JSON value, the result of a successful `JSON.parse`. -/
inductive Json where
  | null : Json
  | bool : Bool → Json
  | num : ℚ → Json
  | str : String → Json
  | arr : List Json → Json
  | obj : List (String × Json) → Json

/-- Property lookup on an object's field list; with duplicate keys,
`JSON.parse` keeps the last occurrence. -/
def lookupLast (fields : List (String × Json)) (k : String) : Option Json :=
  match fields with
  | [] => none
  | (k0, v) :: rest =>
    match lookupLast rest k with
    | some r => some r
    | none => if k0 = k then some v else none

/-- JavaScript property access `j.k` on a parsed JSON value: a field lookup
on an object, `undefined` (here `none`) on any other value.  (On `null` the
access throws instead, but every such throw in the source is caught and
handled identically to a falsy result.) -/
def getField (j : Json) (k : String) : Option Json :=
  match j with
  | .obj fields => lookupLast fields k
  | _ => none

/-- JavaScript truthiness of a JSON value: `null`, `false`, `0` and `""`
are falsy, everything else is truthy. -/
def jsTruthyV : Json → Bool
  | .null => false
  | .bool b => b
  | .num q => decide (q ≠ 0)
  | .str s => decide (s ≠ "")
  | .arr _ => true
  | .obj _ => true

/-- Truthiness of a property access result; `undefined` is falsy. -/
def jsTruthy : Option Json → Bool
  | none => false
  | some v => jsTruthyV v

/-- `Array.isArray` on a property access result. -/
def isArray : Option Json → Bool
  | some (.arr _) => true
  | _ => false

/-- The hardcoded fallback dataset returned by `loadState` on absent or
corrupt storage.  In the source each expense id is produced by `uid()`
(`Math.random`-based); that nondeterminism is modelled with fixed
placeholder ids, on which no claim depends. -/
def defaultState : Json :=
  .obj [
    ("income", .obj [
      ("paycheckDays", .arr [.num 1, .num 16]),
      ("netPerPaycheck", .num 20000),
      ("extras", .num 0)]),
    ("expenses", .arr [
      .obj [("id", .str "id1"), ("name", .str "Rent"), ("amount", .num 10000),
        ("dueDay", .num 1), ("category", .str "fixed")],
      .obj [("id", .str "id2"), ("name", .str "Electric"), ("amount", .num 2500),
        ("dueDay", .num 6), ("category", .str "fixed")],
      .obj [("id", .str "id3"), ("name", .str "Water"), ("amount", .num 600),
        ("dueDay", .num 10), ("category", .str "fixed")],
      .obj [("id", .str "id4"), ("name", .str "Groceries"), ("amount", .num 6000),
        ("dueDay", .num 18), ("category", .str "variable")],
      .obj [("id", .str "id5"), ("name", .str "Mobile Plan"), ("amount", .num 999),
        ("dueDay", .num 20), ("category", .str "fixed")],
      .obj [("id", .str "id6"), ("name", .str "Debt Snowball"), ("amount", .num 3000),
        ("dueDay", .num 25), ("category", .str "debt")],
      .obj [("id", .str "id7"), ("name", .str "Emergency Fund"), ("amount", .num 2000),
        ("dueDay", .num 30), ("category", .str "savings")]])]

/-- `loadState()`.  The storage content is modelled by what the read and
parse steps yield: `none` when the key is absent or the stored text is
falsy, `some none` when `JSON.parse` throws, `some (some j)` when the text
parses to the JSON value `j`.  The source throws on a missing key, a parse
failure, a falsy `parsed.income` or a non-array `parsed.expenses`, catches
every throw, and substitutes the hardcoded default dataset. -/
def loadState (stored : Option (Option Json)) : Json :=
  match stored with
  | some (some parsed) =>
    if jsTruthy (getField parsed "income") && isArray (getField parsed "expenses")
    then parsed else defaultState
  | _ => defaultState

/-- `saveState(state)`: `JSON.stringify` the whole state and write it under
the single storage key.  The store is modelled at the level of parsed
values, relying on the library contract that `JSON.parse` inverts
`JSON.stringify` on JSON values (exact here, since the model has no
non-finite numbers or `undefined` members). -/
def saveState (state : Json) : Option (Option Json) :=
  some (some state)

/-- `onImport` after the file has been read: `parseResult` is `none` when
`JSON.parse(text)` throws, `some parsed` otherwise.  A falsy parse result,
a falsy `parsed.income` or a non-array `parsed.expenses` throws; the catch
shows an alert and leaves the state untouched; otherwise `setState(parsed)`
replaces the whole state. -/
def onImport (parseResult : Option Json) (prev : Json) : Json :=
  match parseResult with
  | none => prev
  | some parsed =>
    if jsTruthyV parsed && jsTruthy (getField parsed "income") &&
        isArray (getField parsed "expenses")
    then parsed else prev

/-- Well-formedness of the serialized `income` object, following the
persisted-state format: `paycheckDays` a pair of numbers, `netPerPaycheck`
and `extras` numbers. -/
def wellFormedIncome : Option Json → Bool
  | some (.obj fields) =>
    (match lookupLast fields "paycheckDays" with
     | some (.arr [.num _, .num _]) => true
     | _ => false) &&
    (match lookupLast fields "netPerPaycheck" with
     | some (.num _) => true
     | _ => false) &&
    (match lookupLast fields "extras" with
     | some (.num _) => true
     | _ => false)
  | _ => false

/-- Well-formedness of one serialized expense record: string `id`, `name`
and `category`, number `amount`, integer `dueDay`. -/
def wellFormedExpense (j : Json) : Bool :=
  (match getField j "id" with | some (.str _) => true | _ => false) &&
  (match getField j "name" with | some (.str _) => true | _ => false) &&
  (match getField j "amount" with | some (.num _) => true | _ => false) &&
  (match getField j "dueDay" with | some (.num q) => decide (q.den = 1) | _ => false) &&
  (match getField j "category" with | some (.str _) => true | _ => false)

/-- Well-formedness of a serialized `BudgetState`: an `income` object and
an `expenses` array of well-formed expense records. -/
def wellFormedState (j : Json) : Bool :=
  wellFormedIncome (getField j "income") &&
  (match getField j "expenses" with
   | some (.arr xs) => xs.all wellFormedExpense
   | _ => false)

lemma wellFormedIncome_truthy {o : Option Json} (h : wellFormedIncome o = true) :
    jsTruthy o = true := by
  cases o with
  | none => simp [wellFormedIncome] at h
  | some v =>
    cases v <;> simp [wellFormedIncome, jsTruthy, jsTruthyV] at h ⊢

lemma wellFormedState_shape {j : Json} (h : wellFormedState j = true) :
    jsTruthy (getField j "income") = true ∧ isArray (getField j "expenses") = true := by
  unfold wellFormedState at h
  rw [Bool.and_eq_true] at h
  refine ⟨wellFormedIncome_truthy h.1, ?_⟩
  rcases h with ⟨-, h2⟩
  revert h2
  cases hx : getField j "expenses" with
  | none => intro h2; exact absurd h2 (by simp)
  | some v => cases v <;> intro h2 <;> simp_all [isArray]

/-- `addExpense(exp)`: appends the record to the expense list, leaving the
rest of the state unchanged. -/
def addExpense (st : BudgetState) (exp : Expense) : BudgetState :=
  { st with expenses := st.expenses ++ [exp] }

/-- The add-expense form fields after numeric coercion.  `amount` and
`dueDay` model `Number(text)`: `some q` when the text denotes the finite
value `q`, `none` when it denotes `NaN` or an infinity (so that
`Number.isFinite` and `Number.isInteger` are both false). -/
structure FormInput where
  name : String
  amount : Option ℚ
  dueDay : Option ℚ
  category : String

/-- JavaScript `String.prototype.trim`: strip leading and trailing
whitespace, embedded structurally over the character list. -/
def jsTrim (s : String) : String :=
  ⟨((s.data.dropWhile Char.isWhitespace).reverse.dropWhile Char.isWhitespace).reverse⟩

/-- The dialog's `submit()` handler: trims the name, coerces amount and
due day to numbers, and silently refuses the add when the name is empty,
the amount is not finite or not positive, or the due day is not an
integer; otherwise calls `onAdd` (= `addExpense`) with a freshly generated
id.  The id generated by `uid()` is passed in as `freshId`. -/
def submit (input : FormInput) (freshId : String) (st : BudgetState) : BudgetState :=
  match input.amount, input.dueDay with
  | some a, some d =>
    if jsTrim input.name = "" ∨ a ≤ 0 ∨ d.den ≠ 1 then st
    else addExpense st
      { id := freshId, name := jsTrim input.name, amount := a,
        dueDay := d.num, category := input.category }
  | _, _ => st

/-- The spec's expense-collection invariant: each amount positive, each
due day in [1, 31], ids pairwise distinct. -/
def ExpenseInvariant (es : List Expense) : Prop :=
  (∀ e ∈ es, 0 < e.amount ∧ 1 ≤ e.dueDay ∧ e.dueDay ≤ 31) ∧
    (es.map Expense.id).Nodup

instance (es : List Expense) : Decidable (ExpenseInvariant es) := by
  unfold ExpenseInvariant
  infer_instance

/-- A concrete initial state used in boundary checks: no expenses, the
default income configuration. -/
def st0 : BudgetState :=
  { expenses := [],
    income := { paycheckDays := (1, 16), netPerPaycheck := 20000, extras := 0 } }

example : (submit ⟨"X", some 5, some 32, "fixed"⟩ "a" st0).expenses =
    [{ id := "a", name := "X", amount := 5, dueDay := 32, category := "fixed" }] := by decide

example : loadState (saveState defaultState) = defaultState := rfl

example : wellFormedState defaultState = true := by decide

example : onImport (some (.num 3)) defaultState = defaultState := rfl
example : assignToPaycheck 1 1 16 2025 0 = some 2 := by decide
example : assignToPaycheck 16 1 16 2025 0 = some 1 := by decide
example : assignToPaycheck 30 1 16 2025 1 = some 2 := by decide
example : daysInMonth 2025 1 = 28 := by decide
example : daysInMonth 2024 1 = 29 := by decide
example : daysInMonth 2025 3 = 30 := by decide
example : clampDay 30 2025 1 = 28 := by decide

/-- C1: for every due day in [1, 31] and every pair of clamped paydays
(each in [1, daysInMonth year monthIndex]), `assignToPaycheck` returns
exactly one of the labels 1 and 2, and returns 1 if and only if
`min p1 p2 < dueDay ∧ dueDay ≤ max p1 p2`. -/
theorem assignToPaycheck_total_and_period1 (dueDay p1 p2 year monthIndex : Int)
    (_hd : 1 ≤ dueDay ∧ dueDay ≤ 31)
    (hp1 : 1 ≤ p1 ∧ p1 ≤ daysInMonth year monthIndex)
    (hp2 : 1 ≤ p2 ∧ p2 ≤ daysInMonth year monthIndex) :
    (assignToPaycheck dueDay p1 p2 year monthIndex = some 1 ∨
      assignToPaycheck dueDay p1 p2 year monthIndex = some 2) ∧
    (assignToPaycheck dueDay p1 p2 year monthIndex = some 1 ↔
      min p1 p2 < dueDay ∧ dueDay ≤ max p1 p2) := by
  rw [assignToPaycheck_char, clampDay_eq_self hp1.1 hp1.2, clampDay_eq_self hp2.1 hp2.2]
  constructor
  · split_ifs <;> simp
  · split_ifs with h
    · exact iff_of_true rfl h
    · exact iff_of_false (by simp) h

theorem assignToPaycheck_total_and_period1_witness :
    (assignToPaycheck 10 1 16 2025 0 = some 1 ∨
      assignToPaycheck 10 1 16 2025 0 = some 2) ∧
    (assignToPaycheck 10 1 16 2025 0 = some 1 ↔
      min 1 16 < (10 : Int) ∧ (10 : Int) ≤ max 1 16) :=
  assignToPaycheck_total_and_period1 10 1 16 2025 0 (by decide) (by decide) (by decide)

/-- C2 counterexample: with equal clamped paydays 16 and 16 (so
`second = max = 16`), `assignToPaycheck(second, p1, p2)` returns 2, not 1
as the claim states for all pairs including `p1 = p2`. -/
theorem assignToPaycheck_second_boundary_counterexample :
    max (clampDay 16 2025 0) (clampDay 16 2025 0) = 16 ∧
    assignToPaycheck 16 16 16 2025 0 = some 2 ∧
    assignToPaycheck 16 16 16 2025 0 ≠ some 1 := by
  decide

/-- C2 (amended): for clamped paydays `p1, p2`, the first payday's own day
is always assigned label 2; the second payday's day is assigned label 1
when the paydays differ, but label 2 when `p1 = p2` (then the period-1
interval `(first, second]` is empty). -/
theorem assignToPaycheck_boundary (p1 p2 year monthIndex : Int)
    (hp1 : 1 ≤ p1 ∧ p1 ≤ daysInMonth year monthIndex)
    (hp2 : 1 ≤ p2 ∧ p2 ≤ daysInMonth year monthIndex) :
    assignToPaycheck (min p1 p2) p1 p2 year monthIndex = some 2 ∧
    (p1 ≠ p2 → assignToPaycheck (max p1 p2) p1 p2 year monthIndex = some 1) ∧
    (p1 = p2 → assignToPaycheck (max p1 p2) p1 p2 year monthIndex = some 2) := by
  have e1 := clampDay_eq_self hp1.1 hp1.2
  have e2 := clampDay_eq_self hp2.1 hp2.2
  refine ⟨?_, ?_, ?_⟩
  · rw [assignToPaycheck_char, e1, e2, if_neg (by omega)]
  · intro h
    rw [assignToPaycheck_char, e1, e2, if_pos (by omega)]
  · intro h
    rw [assignToPaycheck_char, e1, e2, if_neg (by omega)]

theorem assignToPaycheck_boundary_witness :
    assignToPaycheck (min 1 16) 1 16 2025 0 = some 2 ∧
    assignToPaycheck (max 1 16) 1 16 2025 0 = some 1 :=
  ⟨(assignToPaycheck_boundary 1 16 2025 0 (by decide) (by decide)).1,
   (assignToPaycheck_boundary 1 16 2025 0 (by decide) (by decide)).2.1 (by decide)⟩

/-- C3 counterexample: in February 2025 (28 days) with paydays (1, 16), the
per-month assignment gives an expense with due day 30 the paycheck label 2,
not 1 as the claim states. -/
theorem assigned_feb_counterexample :
    assignedPaycheck
        { id := "e", name := "Bill", amount := 100, dueDay := 30, category := "fixed" }
        (paycheckDaysClamped
          { paycheckDays := (1, 16), netPerPaycheck := 20000, extras := 0 } 2025 1)
        2025 1 ≠ some 1 := by
  decide

/-- C3 (amended): the per-month assignment passes the expense's due day to
the paycheck decision unclamped; with paydays (1, 16) in February 2025
(28 days, non-leap) an expense with due day 30 is assigned to paycheck 2.
Clamping would not change the label here: day 30 clamps to 28, and 28 is
also assigned label 2, being greater than the later payday 16. -/
theorem assigned_feb_unclamped :
    assignedPaycheck
        { id := "e", name := "Bill", amount := 100, dueDay := 30, category := "fixed" }
        (paycheckDaysClamped
          { paycheckDays := (1, 16), netPerPaycheck := 20000, extras := 0 } 2025 1)
        2025 1 = some 2 ∧
    clampDay 30 2025 1 = 28 ∧
    assignToPaycheck 28 1 16 2025 1 = some 2 := by
  decide

/-- C5: `clampDay` equals `max 1 (min d daysInMonth)`, always lands in
`[1, daysInMonth year monthIndex]`, and is the identity on days already in
that range. -/
theorem clampDay_spec (d year monthIndex : Int) :
    clampDay d year monthIndex = max 1 (min d (daysInMonth year monthIndex)) ∧
    1 ≤ clampDay d year monthIndex ∧
    clampDay d year monthIndex ≤ daysInMonth year monthIndex ∧
    (1 ≤ d → d ≤ daysInMonth year monthIndex → clampDay d year monthIndex = d) := by
  have h := daysInMonth_ge year monthIndex
  unfold clampDay
  omega

theorem clampDay_spec_witness : clampDay 15 2025 0 = 15 :=
  (clampDay_spec 15 2025 0).2.2.2 (by decide) (by decide)

/-- C10: `assignToPaycheck` is unchanged by pre-clamping its payday
arguments (clamping is idempotent) and by swapping them (only their min
and max are used), for all integer inputs. -/
theorem assignToPaycheck_clamp_swap_invariant (dueDay p1 p2 year monthIndex : Int) :
    assignToPaycheck dueDay p1 p2 year monthIndex =
      assignToPaycheck dueDay (clampDay p1 year monthIndex) (clampDay p2 year monthIndex)
        year monthIndex ∧
    assignToPaycheck dueDay p1 p2 year monthIndex =
      assignToPaycheck dueDay p2 p1 year monthIndex := by
  constructor
  · rw [assignToPaycheck_char, assignToPaycheck_char, clampDay_idem, clampDay_idem]
  · rw [assignToPaycheck_char, assignToPaycheck_char,
      min_comm (clampDay p2 year monthIndex) (clampDay p1 year monthIndex),
      max_comm (clampDay p2 year monthIndex) (clampDay p1 year monthIndex)]

/-- C4: for any expense list with due days in [1, 31] and any payday pair,
year and month, the paycheck-1 total plus the paycheck-2 total equals the
total of all expense amounts: every expense lands in exactly one of the
two per-paycheck sums. -/
theorem paycheck_totals_partition (expenses : List Expense) (pc : Int × Int)
    (year monthIndex : Int)
    (_hdue : ∀ e ∈ expenses, 1 ≤ e.dueDay ∧ e.dueDay ≤ 31) :
    p1Total expenses pc year monthIndex + p2Total expenses pc year monthIndex =
      totalAmount expenses := by
  unfold p1Total p2Total totalAmount p1Items p2Items
  rw [foldl_add_eq, foldl_add_eq, foldl_add_eq, zero_add, zero_add, zero_add]
  have key := sum_map_filter_partition (assigned expenses pc year monthIndex)
      (fun ep => ep.1.amount) (fun ep => ep.2 == some 1) (fun ep => ep.2 == some 2)
      (by
        intro x hx
        unfold assigned at hx
        rw [List.mem_map] at hx
        obtain ⟨e, _, rfl⟩ := hx
        rcases assignToPaycheck_cases e.dueDay pc.1 pc.2 year monthIndex with h | h <;>
          simp [assignedPaycheck, h])
  rw [key]
  unfold assigned
  rw [List.map_map]
  rfl

theorem paycheck_totals_partition_witness :
    p1Total
        [{ id := "a", name := "Rent", amount := 10000, dueDay := 5, category := "fixed" },
         { id := "b", name := "Groceries", amount := 6000, dueDay := 20, category := "variable" }]
        (1, 16) 2025 0 +
      p2Total
        [{ id := "a", name := "Rent", amount := 10000, dueDay := 5, category := "fixed" },
         { id := "b", name := "Groceries", amount := 6000, dueDay := 20, category := "variable" }]
        (1, 16) 2025 0 =
      totalAmount
        [{ id := "a", name := "Rent", amount := 10000, dueDay := 5, category := "fixed" },
         { id := "b", name := "Groceries", amount := 6000, dueDay := 20, category := "variable" }] :=
  paycheck_totals_partition _ (1, 16) 2025 0 (by decide)

/-- C6: `loadState` is total over every storage content — absent key,
unparsable text, or a parsed value failing the shape check (truthy
`income`, array `expenses`) all yield the hardcoded default dataset, and a
parsed value passing the shape check is returned unchanged. -/
theorem loadState_never_raises (stored : Option (Option Json)) :
    (stored = none → loadState stored = defaultState) ∧
    (stored = some none → loadState stored = defaultState) ∧
    (∀ j, stored = some (some j) →
      ((jsTruthy (getField j "income") = true ∧ isArray (getField j "expenses") = true) →
        loadState stored = j) ∧
      (¬(jsTruthy (getField j "income") = true ∧ isArray (getField j "expenses") = true) →
        loadState stored = defaultState)) := by
  refine ⟨?_, ?_, ?_⟩
  · rintro rfl; rfl
  · rintro rfl; rfl
  · rintro j rfl
    cases hI : jsTruthy (getField j "income") with
    | false =>
      refine ⟨fun h => absurd h.1 (by simp [hI]), fun _ => ?_⟩
      simp [loadState, hI]
    | true =>
      cases hE : isArray (getField j "expenses") with
      | false =>
        refine ⟨fun h => absurd h.2 (by simp [hE]), fun _ => ?_⟩
        simp [loadState, hI, hE]
      | true =>
        refine ⟨fun _ => ?_, fun h => absurd ⟨rfl, rfl⟩ h⟩
        simp [loadState, hI, hE]

theorem loadState_never_raises_witness :
    loadState (some (some (Json.obj [("income", Json.obj []), ("expenses", Json.arr [])]))) =
      Json.obj [("income", Json.obj []), ("expenses", Json.arr [])] :=
  ((loadState_never_raises
      (some (some (Json.obj [("income", Json.obj []), ("expenses", Json.arr [])])))).2.2
    (Json.obj [("income", Json.obj []), ("expenses", Json.arr [])]) rfl).1 (by decide)

/-- A value whose `income` property is truthy is itself truthy: only an
object has a non-`undefined` property, and objects are truthy. -/
lemma jsTruthyV_of_field {j : Json} {k : String} (h : jsTruthy (getField j k) = true) :
    jsTruthyV j = true := by
  cases j <;> simp [getField, jsTruthy, jsTruthyV] at h ⊢

/-- C7: import is all-or-nothing — a text that fails to parse, or parses
to a value without a truthy `income` field or without an array `expenses`
field, leaves the previous state unchanged; a text that parses to a value
of the required shape replaces the state with the whole parsed value. -/
theorem onImport_all_or_nothing (parseResult : Option Json) (prev : Json) :
    (parseResult = none → onImport parseResult prev = prev) ∧
    (∀ j, parseResult = some j →
      ((jsTruthy (getField j "income") = true ∧ isArray (getField j "expenses") = true) →
        onImport parseResult prev = j) ∧
      (¬(jsTruthy (getField j "income") = true ∧ isArray (getField j "expenses") = true) →
        onImport parseResult prev = prev)) := by
  refine ⟨?_, ?_⟩
  · rintro rfl; rfl
  · rintro j rfl
    constructor
    · intro h
      simp [onImport, jsTruthyV_of_field h.1, h.1, h.2]
    · intro h
      cases hI : jsTruthy (getField j "income") with
      | false => simp [onImport, hI]
      | true =>
        cases hE : isArray (getField j "expenses") with
        | false => simp [onImport, hI, hE]
        | true => exact absurd ⟨hI, hE⟩ h

theorem onImport_all_or_nothing_witness :
    onImport (some (Json.obj [("income", Json.obj [("extras", Json.num 0)]),
        ("expenses", Json.arr [])])) defaultState =
      Json.obj [("income", Json.obj [("extras", Json.num 0)]), ("expenses", Json.arr [])] :=
  ((onImport_all_or_nothing
      (some (Json.obj [("income", Json.obj [("extras", Json.num 0)]),
        ("expenses", Json.arr [])])) defaultState).2
    (Json.obj [("income", Json.obj [("extras", Json.num 0)]), ("expenses", Json.arr [])])
    rfl).1 (by decide)

/-- C8: persistence round-trip — for every well-formed serialized
`BudgetState` (income object with a numeric `paycheckDays` pair,
`netPerPaycheck` and `extras` numbers; `expenses` an array of records with
string `id`, `name` and `category`, number `amount`, integer `dueDay`),
loading right after saving returns the state unchanged. -/
theorem load_save_roundtrip (state : Json) (h : wellFormedState state = true) :
    loadState (saveState state) = state := by
  obtain ⟨h1, h2⟩ := wellFormedState_shape h
  simp [loadState, saveState, h1, h2]

theorem load_save_roundtrip_witness :
    loadState (saveState defaultState) = defaultState :=
  load_save_roundtrip defaultState (by decide)

/-- C9 counterexample: the entry-point validation checks only that the
due day is an integer, not that it lies in [1, 31].  Starting from the
empty expense collection (which satisfies the invariant), submitting
name "X", amount 5 and due day 32 passes validation, creates a record,
and the resulting collection violates the `dueDay` in [1, 31] invariant. -/
theorem submit_invariant_counterexample :
    ExpenseInvariant st0.expenses ∧
    (submit { name := "X", amount := some 5, dueDay := some 32, category := "fixed" }
        "a" st0).expenses =
      [{ id := "a", name := "X", amount := 5, dueDay := 32, category := "fixed" }] ∧
    ¬ ExpenseInvariant
        (submit { name := "X", amount := some 5, dueDay := some 32, category := "fixed" }
          "a" st0).expenses := by
  refine ⟨by decide, by decide, by decide⟩

/-- C9 (amended): the add path preserves the expense-collection invariant
provided the entered due day additionally lies in [1, 31] and the freshly
generated id does not collide with an existing one; the entry validation
itself guarantees only a positive amount and an integral due day. -/
theorem submit_preserves_invariant (input : FormInput) (freshId : String) (st : BudgetState)
    (hinv : ExpenseInvariant st.expenses)
    (hfresh : freshId ∉ st.expenses.map Expense.id)
    (hday : ∀ q : ℚ, input.dueDay = some q → 1 ≤ q ∧ q ≤ 31) :
    ExpenseInvariant (submit input freshId st).expenses := by
  unfold submit
  cases hA : input.amount with
  | none => exact hinv
  | some a =>
    cases hD : input.dueDay with
    | none => exact hinv
    | some d =>
      dsimp only
      split_ifs with hcond
      · exact hinv
      · push_neg at hcond
        obtain ⟨-, ha, hden⟩ := hcond
        have hq := hday d hD
        have hcast : (d.num : ℚ) = d := (Rat.den_eq_one_iff d).mp hden
        have hnum : 1 ≤ d.num ∧ d.num ≤ 31 := by
          constructor
          · exact_mod_cast hcast ▸ hq.1
          · exact_mod_cast hcast ▸ hq.2
        unfold addExpense ExpenseInvariant
        constructor
        · intro e he
          rw [List.mem_append, List.mem_singleton] at he
          rcases he with he | he
          · exact hinv.1 e he
          · subst he
            exact ⟨ha, hnum.1, hnum.2⟩
        · rw [List.map_append, List.map_cons, List.map_nil]
          refine List.Nodup.append hinv.2 (List.nodup_singleton _) ?_
          intro x hx hx2
          rw [List.mem_singleton] at hx2
          subst hx2
          exact hfresh hx

theorem submit_preserves_invariant_witness :
    ExpenseInvariant
      (submit { name := "X", amount := some 5, dueDay := some 5, category := "fixed" }
        "a" st0).expenses :=
  submit_preserves_invariant
    { name := "X", amount := some 5, dueDay := some 5, category := "fixed" } "a" st0
    (by decide) (by decide)
    (by
      intro q hq
      simp only [Option.some.injEq] at hq
      subst hq
      constructor <;> norm_num)
